import Mathlib

/-!
Verification development for the serwist precache-manifest build pipeline
(`getFileManifestEntries`) and the webpack injection plugin (`InjectManifest`).

The embedding follows the TypeScript source closely:
* `getFileManifestEntries` is translated control-flow for control-flow from
  the source file, with the helpers that live in other files of the
  repository (`getFileDetails`, `getCompositeDetails`, `getStringDetails`,
  `transformManifest`) abstracted into a `BuildEnv` record, since only their
  observable results matter to the function being verified.
* The `InjectManifest` methods `getManifestEntries` and `addAssets` are
  translated as pure state-passing functions; a thrown JavaScript `Error`
  becomes an `Option String` carrying the error message, and the webpack
  compilation's mutable warning list and asset store become explicit values.
-/

/-- One resolved asset, as produced by glob expansion: a url-shaped path,
a content hash and a byte size. -/
structure FileDetails where
  file : String
  hash : String
  size : Nat
deriving Repr, DecidableEq

/-- A JavaScript value thrown during glob expansion: either an `Error`
instance (carrying its `message`) or some non-`Error` value. The catch
blocks in the source distinguish exactly these cases. -/
inductive Thrown where
  | errorObj (message : String)
  | nonError
deriving Repr, DecidableEq

/-- Successful result of `getFileDetails`: the matched file details (the
source defensively checks each element for null, hence `Option`) plus an
optional warning string. -/
structure GlobOk where
  globbedFileDetails : List (Option FileDetails)
  warning : Option String
deriving Repr, DecidableEq

/-- Value of one `templatedURLs` entry: either an ordered list of glob
patterns or a literal revision string. -/
inductive TemplatedValue where
  | deps (patterns : List String)
  | revString (s : String)
deriving Repr, DecidableEq

/-- Fatal errors thrown by `getFileManifestEntries`, one constructor per
throw site: the collision assert, the rethrow inside the templated-URL
dependency reduce, and the zero-dependency check. -/
inductive FatalError where
  | templatedURLCollision (url : String)
  | patternExpansionFatal (url : String) (pat : String)
  | noDependenciesResolved (url : String)
deriving Repr, DecidableEq

/-- One entry of the final precache manifest. -/
structure ManifestEntry where
  url : String
  revision : Option String
deriving Repr, DecidableEq

/-- Result shape of `transformManifest` and hence of
`getFileManifestEntries`: entry count, total size, the manifest entries
(absent when manifest output is disabled), and accumulated warnings. -/
structure GetManifestResult where
  count : Nat
  size : Nat
  manifestEntries : Option (List ManifestEntry)
  warnings : List String
deriving Repr, DecidableEq

/-- Repository code called by `getFileManifestEntries` that lives in other
source files; the glob options are fixed for one invocation, so
`getFileDetails` is abstracted as a function of the pattern alone. The
transform pipeline (`transformManifest` without its disable short-circuit)
is likewise abstract. -/
structure BuildEnv where
  getFileDetails : String → Except Thrown GlobOk
  getCompositeDetails : String → List (Option FileDetails) → FileDetails
  getStringDetails : String → String → FileDetails
  transformPipeline : List FileDetails → GetManifestResult

/-- Options of `getFileManifestEntries` that the function itself inspects.
The remaining options of the source signature (size limit, transforms, URL
rewriting, extra entries) are forwarded unchanged to `transformManifest`
and are therefore part of `BuildEnv.transformPipeline`. `templatedURLs` is
an ordered association list, matching JavaScript object key insertion
order as iterated by `Object.keys`. -/
structure ManifestOptions where
  globPatterns : List String := []
  templatedURLs : Option (List (String × TemplatedValue)) := none
  disablePrecacheManifest : Bool := false

/-- Membership test of the `allFileDetails` JavaScript `Map`, modelled as
an insertion-ordered association list. -/
def mapHas (m : List (String × FileDetails)) (k : String) : Bool :=
  m.any (fun p => p.1 == k)

/-- Lookup in the insertion-ordered association list. -/
def mapLookup (m : List (String × FileDetails)) (k : String) : Option FileDetails :=
  match m with
  | [] => none
  | p :: rest => if p.1 == k then some p.2 else mapLookup rest k

/-- `Map.set`: overwrite in place when the key exists, append otherwise
(JavaScript `Map` preserves insertion order). -/
def mapSet (m : List (String × FileDetails)) (k : String) (v : FileDetails) :
    List (String × FileDetails) :=
  if mapHas m k then m.map (fun p => if p.1 == k then (k, v) else p)
  else m ++ [(k, v)]

/-- The catch block of the direct-glob loop: an exception is reported as a
warning only when it is an `Error` instance with a truthy (non-empty)
message; anything else is dropped. -/
def catchWarning : Thrown → List String
  | .errorObj msg => if msg = "" then [] else [msg]
  | .nonError => []

/-- The inner registration loop over one pattern's details: a detail is
registered only when it is non-null and its `file` key is not yet present
(first write wins). -/
def registerDetails (m : List (String × FileDetails)) (ds : List (Option FileDetails)) :
    List (String × FileDetails) :=
  ds.foldl
    (fun m od =>
      match od with
      | some details => if mapHas m details.file then m else mapSet m details.file details
      | none => m)
    m

/-- The direct-glob loop of `getFileManifestEntries`, together with its
surrounding try/catch: the try wraps the whole `for` loop, so the first
pattern whose expansion throws terminates the loop (remaining patterns are
not expanded), with the exception converted by `catchWarning`. -/
def globLoop (env : BuildEnv) (patterns : List String)
    (m : List (String × FileDetails)) (w : List String) :
    List (String × FileDetails) × List String :=
  match patterns with
  | [] => (m, w)
  | p :: rest =>
    match env.getFileDetails p with
    | .error e => (m, w ++ catchWarning e)
    | .ok r =>
      let w' := match r.warning with
        | some s => w ++ [s]
        | none => w
      globLoop env rest (registerDetails m r.globbedFileDetails) w'

/-- The `reduce` over one templated URL's dependency pattern list: each
pattern is expanded inside its own try/catch, and a throw is rethrown as a
fatal error naming the URL and the pattern; otherwise warnings accumulate
and the details are concatenated in order. -/
def depsReduce (env : BuildEnv) (url : String) (patterns : List String)
    (acc : List (Option FileDetails)) (w : List String) :
    Except FatalError (List (Option FileDetails) × List String) :=
  match patterns with
  | [] => .ok (acc, w)
  | p :: rest =>
    match env.getFileDetails p with
    | .error _ => .error (.patternExpansionFatal url p)
    | .ok r =>
      let w' := match r.warning with
        | some s => w ++ [s]
        | none => w
      depsReduce env url rest (acc ++ r.globbedFileDetails) w'

/-- The templated-URL loop of `getFileManifestEntries`: for each URL, first
the collision assert against the map built so far, then either the
dependency-list path (with the zero-dependency fatal check and the
composite details) or the literal-revision-string path. -/
def templatedLoop (env : BuildEnv) (entries : List (String × TemplatedValue))
    (m : List (String × FileDetails)) (w : List String) :
    Except FatalError (List (String × FileDetails) × List String) :=
  match entries with
  | [] => .ok (m, w)
  | (url, dependencies) :: rest =>
    if mapHas m url then .error (.templatedURLCollision url)
    else
      match dependencies with
      | .deps patterns =>
        match depsReduce env url patterns [] w with
        | .error e => .error e
        | .ok (details, w') =>
          if details.length = 0 then .error (.noDependenciesResolved url)
          else templatedLoop env rest (mapSet m url (env.getCompositeDetails url details)) w'
      | .revString s => templatedLoop env rest (mapSet m url (env.getStringDetails url s)) w

/-- Modelled from the spec: `transformManifest` is repository code that is
not under src/. Per the spec, if `disablePrecacheManifest` is set the
pipeline short-circuits and returns an empty/undefined manifest (no
entries, size 0) with no warnings of its own; otherwise the ordered
transform stages run, abstracted as `env.transformPipeline`. -/
def transformManifest (env : BuildEnv) (disablePrecacheManifest : Bool)
    (fileDetails : List FileDetails) : GetManifestResult :=
  if disablePrecacheManifest then
    { count := 0, size := 0, manifestEntries := none, warnings := [] }
  else
    env.transformPipeline fileDetails

/-- The two resolution phases of `getFileManifestEntries` (direct glob
loop, then the optional templated-URL loop), returning the unified
`allFileDetails` map and the accumulated warnings, or the first fatal
error. -/
def resolvePhases (env : BuildEnv) (opts : ManifestOptions) :
    Except FatalError (List (String × FileDetails) × List String) :=
  let g := globLoop env opts.globPatterns [] []
  match opts.templatedURLs with
  | some turls => templatedLoop env turls g.1 g.2
  | none => .ok g

/-- Translation of `getFileManifestEntries`: resolve the phases, call
`transformManifest` on the map's values in insertion order, then push the
accumulated warnings onto the transform result's own warnings. -/
def getFileManifestEntries (env : BuildEnv) (opts : ManifestOptions) :
    Except FatalError GetManifestResult :=
  match resolvePhases env opts with
  | .error e => .error e
  | .ok (m, warnings) =>
    let t := transformManifest env opts.disablePrecacheManifest (m.map Prod.snd)
    .ok { t with warnings := t.warnings ++ warnings }

/-- Occurrence count of a non-empty literal pattern in a character list,
scanning left to right and skipping past each match, exactly as a global
regular-expression match over the escaped literal `injectionPoint` counts
occurrences. An empty pattern counts zero (the plugin's validated
`injectionPoint` is a non-empty string). The extra fuel argument makes the
recursion structural; every step consumes at least one character, so fuel
equal to the text length never runs out. -/
def countOccsAux (pat : List Char) : Nat → List Char → Nat
  | _, [] => 0
  | 0, _ :: _ => 0
  | fuel + 1, c :: rest =>
    if 1 ≤ pat.length ∧ pat.isPrefixOf (c :: rest) then
      countOccsAux pat fuel ((c :: rest).drop pat.length) + 1
    else
      countOccsAux pat fuel rest

/-- String wrapper for `countOccsAux`, with fuel set to the text length. -/
def countOccs (s pat : String) : Nat :=
  countOccsAux pat.data s.data.length s.data

/-- Replacement of the first occurrence of a literal pattern, as performed
by JavaScript `String.prototype.replace` with a string search argument. -/
def replaceFirstFrom (pat rep : List Char) : List Char → List Char
  | [] => []
  | c :: rest =>
    if 1 ≤ pat.length ∧ pat.isPrefixOf (c :: rest) then
      rep ++ (c :: rest).drop pat.length
    else
      c :: replaceFirstFrom pat rep rest

/-- String wrapper for `replaceFirstFrom`. -/
def stringReplaceFirst (s pat rep : String) : String :=
  ⟨replaceFirstFrom pat.data rep.data s.data⟩

/-- The apostrophe character, written by code point. -/
def aposChar : Char := Char.ofNat 39

/-- The double-quote character, written by code point. -/
def dquoteChar : Char := Char.ofNat 34

/-- Message of the error thrown when the injection point does not occur in
the service-worker source. -/
def cantFindMessage (injectionPoint : String) : String :=
  ("Can" ++ String.singleton aposChar ++ "t find ") ++ injectionPoint ++ " in your SW source."

/-- Message of the error thrown when the injection point occurs more than
once in the service-worker source. -/
def multipleInstancesMessage (injectionPoint : String) : String :=
  "Multiple instances of " ++ injectionPoint ++
    (" were " ++
      "found in your SW source. Include it only once. For more info, see " ++
      "https://github.com/GoogleChrome/workbox/issues/2681")

/-- The assets that `addAssets` reads and updates: the text of the asset at
`swDest` and, when `getSourcemapAssetName` finds one, the text of the
associated source-map asset. -/
structure AssetState where
  swText : String
  sourcemapText : Option String
deriving Repr, DecidableEq

/-- External code used by `addAssets` on its success path:
`replaceAndUpdateSourceMap` from the build package, taking the original
map, the original source, the replacement string and the search string,
and returning the edited source and updated map. -/
structure InjectEnv where
  replaceAndUpdateSourceMap : String → String → String → String → String × String

/-- Translation of the placeholder-handling part of
`InjectManifest.addAssets`: count the occurrences of the injection point
in the service-worker asset text; zero occurrences throws the
placeholder-not-found error and more than one throws the
multiple-instances error, in both cases before any asset is updated (the
two `updateAsset` calls are the only asset writes and sit on the success
path); exactly one occurrence updates the assets, through
`replaceAndUpdateSourceMap` when a source map is present and through a
plain first-occurrence string replacement otherwise. A thrown error is
returned as `some message` alongside the (then unchanged) asset state. -/
def addAssets (env : InjectEnv) (injectionPoint manifestString : String)
    (st : AssetState) : AssetState × Option String :=
  let n := countOccs st.swText injectionPoint
  if n = 0 then (st, some (cantFindMessage injectionPoint))
  else if n ≠ 1 then (st, some (multipleInstancesMessage injectionPoint))
  else
    match st.sourcemapText with
    | some mapText =>
      let sm := env.replaceAndUpdateSourceMap mapText st.swText manifestString injectionPoint
      ({ swText := sm.1, sourcemapText := some sm.2 }, none)
    | none =>
      ({ st with swText := stringReplaceFirst st.swText injectionPoint manifestString }, none)

/-- The warning message pushed by `getManifestEntries` on repeated
invocation (the class name `InjectManifest` substituted for
`this.constructor.name`). -/
def staleWarningMessage : String :=
  "InjectManifest has been called " ++
    "multiple times, perhaps due to running webpack in --watch mode. The " ++
    "precache manifest generated after the first call may be inaccurate! " ++
    "Please see https://github.com/GoogleChrome/workbox/issues/1790 for " ++
    "more information."

/-- A flat JavaScript object (one manifest entry in memory): an ordered
list of fields, each a string value or null, in insertion order. -/
def JsObject := List (String × Option String)

/-- Key canonicalization of `fast-json-stable-stringify`: the object's
fields are serialized in sorted key order, not insertion order. -/
def sortFields (o : List (String × Option String)) : List (String × Option String) :=
  List.insertionSort (fun p q => p.1 ≤ q.1) o

/-- Serialization of one field (keys and values are taken verbatim; the
entries' url and revision strings contain no characters needing JSON
escapes in this model). -/
def jsonFieldString (f : String × Option String) : String :=
  match f.2 with
  | some v => "\"" ++ f.1 ++ "\":\"" ++ v ++ "\""
  | none => "\"" ++ f.1 ++ "\":null"

/-- Modelled from the spec: `fast-json-stable-stringify` (an external
dependency) serializes an object with its keys canonicalized by sorting
before stringification. -/
def stringifyObj (o : List (String × Option String)) : String :=
  "\x7b" ++ String.intercalate "," ((sortFields o).map jsonFieldString) ++ "\x7d"

/-- Stable stringification of the sorted entry array: elements in array
order, each object with sorted keys. -/
def stringifyEntries (entries : List (List (String × Option String))) : String :=
  "[" ++ String.intercalate "," (entries.map stringifyObj) ++ "]"

/-- Replacement of every double quote by a single quote, as applied to the
manifest string when `compileSrc` is set (and the devtool/minimize
exception does not apply). -/
def toSingleQuotes (s : String) : String :=
  s.map (fun c => if c = dquoteChar then aposChar else c)

/-- The configuration bits that decide the quote style of the manifest
string in `getManifestEntries`. -/
structure QuoteConfig where
  compileSrc : Bool
  devtoolEvalCheapSourceMap : Bool
  minimize : Bool
deriving Repr, DecidableEq

/-- The serialization step of `getManifestEntries` (its lines computing
`manifestString`): stable stringification followed by the conditional
quote replacement. -/
def makeManifestString (cfg : QuoteConfig)
    (sortedEntries : List (List (String × Option String))) : String :=
  let s := stringifyEntries sortedEntries
  if cfg.compileSrc && !(cfg.devtoolEvalCheapSourceMap && cfg.minimize) then
    toSingleQuotes s
  else s

/-- Result record of `getManifestEntries`. -/
structure ManifestEntriesResult where
  size : Nat
  sortedEntries : Option (List (List (String × Option String)))
  manifestString : String
deriving Repr, DecidableEq

/-- Translation of `InjectManifest.getManifestEntries`: the
`disablePrecacheManifest` early return (before the repeated-invocation
check, so it neither warns nor marks the instance as called); otherwise
the repeated-invocation check against the instance flag `alreadyCalled`
and the compilation's warning list (a warning is pushed only when an
identical one is not already present), then the entry computation
(abstracted as the `pipeline` argument, since
`getManifestEntriesFromCompilation` is not under src/) and the
serialization step. Returns the updated instance flag, the updated
compilation warning list, and the result record. -/
def getManifestEntriesStep (cfg : QuoteConfig) (disablePrecacheManifest : Bool)
    (pipeline : Nat × List (List (String × Option String)))
    (alreadyCalled : Bool) (compilationWarnings : List String) :
    Bool × List String × ManifestEntriesResult :=
  if disablePrecacheManifest then
    (alreadyCalled, compilationWarnings,
      { size := 0, sortedEntries := none, manifestString := "undefined" })
  else
    let state :=
      if alreadyCalled then
        (true,
          if compilationWarnings.any (· == staleWarningMessage) then compilationWarnings
          else compilationWarnings ++ [staleWarningMessage])
      else (true, compilationWarnings)
    (state.1, state.2,
      { size := pipeline.1, sortedEntries := some pipeline.2,
        manifestString := makeManifestString cfg pipeline.2 })

/-- A trivial injection environment for concrete evaluations (its success
path is never exercised by the error-path theorems). -/
def dummyInjectEnv : InjectEnv := ⟨fun _ _ _ _ => ("", "")⟩

/-- Two sample details that share the `file` key and a third with a
different key, for concrete runs. -/
def sampleDetails1 : FileDetails := ⟨"u", "A", 1⟩

/-- Second sample detail with the same `file` key as `sampleDetails1` but a
different hash. -/
def sampleDetails2 : FileDetails := ⟨"u", "B", 2⟩

/-- Third sample detail with its own `file` key. -/
def sampleDetails3 : FileDetails := ⟨"v", "C", 3⟩

/-- A concrete build environment used by the concrete runs: three patterns
that match, one that throws an `Error` with a message, one that throws a
non-`Error` value, one that throws an `Error` with an empty message, and
everything else matching nothing. -/
def sampleEnv : BuildEnv :=
  { getFileDetails := fun p =>
      if p = "p1" then .ok ⟨[some sampleDetails1], none⟩
      else if p = "p2" then .ok ⟨[some sampleDetails2], none⟩
      else if p = "p3" then .ok ⟨[some sampleDetails3], none⟩
      else if p = "boom" then .error (.errorObj "boom")
      else if p = "silent" then .error .nonError
      else if p = "silentMsg" then .error (.errorObj "")
      else .ok ⟨[], none⟩
  , getCompositeDetails := fun url ds => ⟨url, "composite", ds.length⟩
  , getStringDetails := fun url s => ⟨url, s, 0⟩
  , transformPipeline := fun fds =>
      ⟨fds.length, fds.foldl (fun a d => a + d.size) 0,
        some (fds.map fun d => ⟨d.file, some d.hash⟩), []⟩ }

/-- When every pattern of a first block expands without throwing, the
direct-glob loop over the concatenation runs the first block to completion
and continues with the second block from the accumulated state. -/
theorem globLoop_append_ok (env : BuildEnv) (l1 l2 : List String)
    (h : ∀ q ∈ l1, (env.getFileDetails q).isOk = true) :
    ∀ m w, globLoop env (l1 ++ l2) m w =
      globLoop env l2 (globLoop env l1 m w).1 (globLoop env l1 m w).2 := by
  induction l1 with
  | nil => intro m w; simp [globLoop]
  | cons p rest ih =>
    intro m w
    have hp : (env.getFileDetails p).isOk = true := h p (by simp)
    cases hfd : env.getFileDetails p with
    | error e => rw [hfd] at hp; simp [Except.isOk, Except.toBool] at hp
    | ok r =>
      simp only [List.cons_append, globLoop, hfd]
      exact ih (fun q hq => h q (by simp [hq])) _ _

/-- C10: if expansion of a direct glob pattern throws a value that is not
an `Error` instance, or an `Error` whose message is empty, the catch block
records no warning and the run is indistinguishable from one whose pattern
list stopped just before the throwing pattern: the exception is swallowed
silently and the result carries no trace of it (the patterns after it are
skipped by the loop-wide try/catch either way). -/
theorem C10_silent_swallow (env : BuildEnv) (pre post : List String) (p : String)
    (e : Thrown)
    (hOk : ∀ q ∈ pre, (env.getFileDetails q).isOk = true)
    (hThrow : env.getFileDetails p = .error e)
    (hSilent : e = .nonError ∨ e = .errorObj "") :
    globLoop env (pre ++ p :: post) [] [] = globLoop env pre [] [] := by
  rw [globLoop_append_ok env pre (p :: post) hOk]
  have hc : catchWarning e = [] := by
    rcases hSilent with h | h <;> simp [h, catchWarning]
  simp [globLoop, hThrow, hc]

/-- Witness for C10 at a concrete input: the pattern `silent` throws a
non-`Error` value between two ordinary patterns and the run equals the run
over the untouched first block alone. -/
theorem C10_silent_swallow_witness :
    (∀ q ∈ ["p1"], (sampleEnv.getFileDetails q).isOk = true) ∧
    sampleEnv.getFileDetails "silent" = .error .nonError ∧
    globLoop sampleEnv ["p1", "silent", "p3"] [] [] = globLoop sampleEnv ["p1"] [] [] := by
  refine ⟨by decide, by rfl, ?_⟩
  exact C10_silent_swallow sampleEnv ["p1"] ["p3"] "silent" .nonError (by decide) (by rfl)
    (Or.inl rfl)

/-- C5 (counterexample): the claim says that after one direct glob pattern
throws, the remaining patterns are still expanded and contribute their
file details. In the source the try/catch wraps the whole loop, so they
are not: pattern `p3` alone contributes the detail `("v", C)`, yet the run
over `["boom", "p3"]` produces an empty map — `p3` contributed nothing
after `boom` threw, only the warning is recorded. -/
theorem C5_counterexample :
    sampleEnv.getFileDetails "boom" = .error (.errorObj "boom") ∧
    globLoop sampleEnv ["p3"] [] [] = ([("v", sampleDetails3)], []) ∧
    globLoop sampleEnv ["boom", "p3"] [] [] = ([], ["boom"]) := by
  exact ⟨by rfl, by decide, by decide⟩

/-- C5 (amended): when a direct glob pattern throws an `Error` with a
non-empty message, the failure is recorded as a warning and does not abort
the run (the build still returns a result carrying that warning), but the
remaining patterns in the list are NOT expanded: the run equals the run
over the patterns before the throwing one, plus the warning. -/
theorem C5_amended_warn_and_stop (env : BuildEnv) (pre post : List String) (p : String)
    (msg : String) (opts : ManifestOptions)
    (hOk : ∀ q ∈ pre, (env.getFileDetails q).isOk = true)
    (hThrow : env.getFileDetails p = .error (.errorObj msg))
    (hMsg : msg ≠ "")
    (hPat : opts.globPatterns = pre ++ p :: post)
    (hT : opts.templatedURLs = none) :
    globLoop env (pre ++ p :: post) [] [] =
      ((globLoop env pre [] []).1, (globLoop env pre [] []).2 ++ [msg]) ∧
    ∃ r, getFileManifestEntries env opts = .ok r ∧ msg ∈ r.warnings := by
  have h1 : globLoop env (pre ++ p :: post) [] [] =
      ((globLoop env pre [] []).1, (globLoop env pre [] []).2 ++ [msg]) := by
    rw [globLoop_append_ok env pre (p :: post) hOk]
    simp [globLoop, hThrow, catchWarning, hMsg]
  refine ⟨h1, ?_⟩
  have hres : resolvePhases env opts =
      .ok ((globLoop env pre [] []).1, (globLoop env pre [] []).2 ++ [msg]) := by
    simp [resolvePhases, hT, hPat, h1]
  refine ⟨{ transformManifest env opts.disablePrecacheManifest
        (((globLoop env pre [] []).1).map Prod.snd) with
      warnings := (transformManifest env opts.disablePrecacheManifest
        (((globLoop env pre [] []).1).map Prod.snd)).warnings ++
        ((globLoop env pre [] []).2 ++ [msg]) }, ?_, ?_⟩
  · simp only [getFileManifestEntries, hres]
  · simp

/-- Witness for C5 (amended) at a concrete input: `boom` throws after `p1`
and before `p3`; the run equals the `["p1"]` run plus the warning, and the
build returns a result whose warnings include `boom`. -/
theorem C5_amended_warn_and_stop_witness :
    sampleEnv.getFileDetails "boom" = .error (.errorObj "boom") ∧
    (globLoop sampleEnv (["p1"] ++ "boom" :: ["p3"]) [] [] =
      ((globLoop sampleEnv ["p1"] [] []).1, (globLoop sampleEnv ["p1"] [] []).2 ++ ["boom"]) ∧
    ∃ r, getFileManifestEntries sampleEnv
        { globPatterns := ["p1"] ++ "boom" :: ["p3"], templatedURLs := none,
          disablePrecacheManifest := false } = .ok r ∧ "boom" ∈ r.warnings) := by
  refine ⟨by rfl, ?_⟩
  exact C5_amended_warn_and_stop sampleEnv ["p1"] ["p3"] "boom" "boom" _
    (by decide) (by rfl) (by decide) rfl rfl

/-- C1 (counterexample): the claim requires the ambiguous-placeholder error
message to name the number of occurrences found. The message thrown by
`addAssets` is the same fixed string for an artifact containing the token
twice and for one containing it three times, so it cannot name the count
(it names only the token). -/
theorem C1_counterexample :
    countOccs "xMMyMMz" "MM" = 2 ∧ countOccs "xMMyMMzMM" "MM" = 3 ∧
    (addAssets dummyInjectEnv "MM" "m" ⟨"xMMyMMz", none⟩).2 =
      some (multipleInstancesMessage "MM") ∧
    (addAssets dummyInjectEnv "MM" "m" ⟨"xMMyMMzMM", none⟩).2 =
      some (multipleInstancesMessage "MM") := by
  exact ⟨by decide, by decide, by decide, by decide⟩

/-- C1 (amended): for every artifact text and non-empty placeholder token,
injection fails with the fatal placeholder-not-found error when the token
occurs zero times and with the fatal multiple-instances error when it
occurs more than once; both messages name the token, but the
multiple-instances message does not include the occurrence count (it is a
fixed message independent of the count, as the counterexample shows). -/
theorem C1_amended_placeholder_errors (env : InjectEnv) (ip ms : String) (st : AssetState)
    (_hip : ip ≠ "") :
    (countOccs st.swText ip = 0 →
      (addAssets env ip ms st).2 = some (cantFindMessage ip)) ∧
    (1 < countOccs st.swText ip →
      (addAssets env ip ms st).2 = some (multipleInstancesMessage ip)) ∧
    (∃ u v, cantFindMessage ip = u ++ ip ++ v) ∧
    (∃ u v, multipleInstancesMessage ip = u ++ ip ++ v) := by
  refine ⟨?_, ?_, ?_, ?_⟩
  · intro h
    simp [addAssets, countOccs] at h ⊢
    simp [h]
  · intro h
    have h0 : ¬ countOccs st.swText ip = 0 := by omega
    have h1 : countOccs st.swText ip ≠ 1 := by omega
    simp [addAssets, h0, h1]
  · exact ⟨"Can" ++ String.singleton aposChar ++ "t find ", " in your SW source.", rfl⟩
  · exact ⟨"Multiple instances of ",
      " were " ++
        "found in your SW source. Include it only once. For more info, see " ++
        "https://github.com/GoogleChrome/workbox/issues/2681", rfl⟩

/-- Witness for C1 (amended) at concrete inputs: an artifact without the
token yields the not-found message, and one with two occurrences yields
the multiple-instances message. -/
theorem C1_amended_placeholder_errors_witness :
    ("MM" : String) ≠ "" ∧ countOccs "A" "MM" = 0 ∧ 1 < countOccs "xMMyMM" "MM" ∧
    (addAssets dummyInjectEnv "MM" "m" ⟨"A", none⟩).2 = some (cantFindMessage "MM") ∧
    (addAssets dummyInjectEnv "MM" "m" ⟨"xMMyMM", none⟩).2 =
      some (multipleInstancesMessage "MM") := by
  refine ⟨by decide, by decide, by decide, ?_, ?_⟩
  · exact (C1_amended_placeholder_errors dummyInjectEnv "MM" "m" ⟨"A", none⟩ (by decide)).1
      (by decide)
  · exact ((C1_amended_placeholder_errors dummyInjectEnv "MM" "m" ⟨"xMMyMM", none⟩
      (by decide)).2).1 (by decide)

/-- C2: whenever the placeholder occurs zero times or more than once in the
artifact text, `addAssets` reports a fatal error and performs no asset
update: the artifact text and the source-map asset are returned exactly as
they were. -/
theorem C2_no_write_on_placeholder_error (env : InjectEnv) (ip ms : String)
    (st : AssetState)
    (h : countOccs st.swText ip ≠ 1) :
    (addAssets env ip ms st).1 = st ∧ ((addAssets env ip ms st).2).isSome = true := by
  by_cases h0 : countOccs st.swText ip = 0
  · simp [addAssets, h0]
  · simp [addAssets, h0, h]

/-- Witness for C2 at a concrete input: two occurrences, with a source map
present; both assets are unchanged and an error is reported. -/
theorem C2_no_write_on_placeholder_error_witness :
    countOccs "xMMyMM" "MM" ≠ 1 ∧
    (addAssets dummyInjectEnv "MM" "m" ⟨"xMMyMM", some "mapdata"⟩).1 =
      ⟨"xMMyMM", some "mapdata"⟩ ∧
    ((addAssets dummyInjectEnv "MM" "m" ⟨"xMMyMM", some "mapdata"⟩).2).isSome = true := by
  refine ⟨by decide, ?_⟩
  exact C2_no_write_on_placeholder_error dummyInjectEnv "MM" "m" ⟨"xMMyMM", some "mapdata"⟩
    (by decide)

/-- C7 (counterexample): the claim says every invocation after the first
adds a possibly-stale warning to the compilation's warning list. The
source deduplicates: with the manifest enabled, a second invocation on a
compilation whose warning list is empty appends the warning, but a third
invocation on the same compilation (whose list already holds the identical
warning) appends nothing — the list stays at one element instead of
growing. -/
theorem C7_counterexample :
    (getManifestEntriesStep ⟨false, false, false⟩ false (0, []) false []).2.1 = [] ∧
    (getManifestEntriesStep ⟨false, false, false⟩ false (0, []) true []).2.1 =
      [staleWarningMessage] ∧
    (getManifestEntriesStep ⟨false, false, false⟩ false (0, [])
      true [staleWarningMessage]).2.1 = [staleWarningMessage] := by
  refine ⟨rfl, ?_, ?_⟩
  · simp [getManifestEntriesStep]
  · simp [getManifestEntriesStep]

/-- C7 (amended): with the precache manifest enabled, the first invocation
(instance flag still false) emits no staleness warning and sets the flag;
every invocation after the first ensures the possibly-stale warning is
present in the compilation's warning list, appending it exactly when an
identical warning is not already there (so a warning is never duplicated
within one compilation). -/
theorem C7_amended_stale_warning (cfg : QuoteConfig)
    (pipeline : Nat × List (List (String × Option String)))
    (alreadyCalled : Bool) (w : List String) :
    (getManifestEntriesStep cfg false pipeline alreadyCalled w).1 = true ∧
    (getManifestEntriesStep cfg false pipeline alreadyCalled w).2.1 =
      (if alreadyCalled then
        (if staleWarningMessage ∈ w then w else w ++ [staleWarningMessage])
      else w) := by
  cases alreadyCalled with
  | false => exact ⟨rfl, rfl⟩
  | true =>
    by_cases hm : staleWarningMessage ∈ w
    · have ha : (w.any (· == staleWarningMessage)) = true := by
        simp [List.any_eq_true, hm]
      refine ⟨rfl, ?_⟩
      simp [getManifestEntriesStep, ha, hm]
    · have ha : (w.any (· == staleWarningMessage)) = false := by
        simp [List.any_eq_false]
        intro x hx
        exact fun he => hm (he ▸ hx)
      refine ⟨rfl, ?_⟩
      simp [getManifestEntriesStep, ha, hm]

/-- Left-biased choice on optional details (the value of an earlier
registration, when present, over a later one). -/
def optOr (a b : Option FileDetails) : Option FileDetails :=
  match a with
  | some v => some v
  | none => b

/-- The first non-null detail with the given `file` key in a stream of
resolved details, in stream order. -/
def lookupFirstDetail (k : String) : List (Option FileDetails) → Option FileDetails
  | [] => none
  | some d :: rest => if d.file == k then some d else lookupFirstDetail k rest
  | none :: rest => lookupFirstDetail k rest

/-- The whole stream of details resolved by the direct glob patterns, in
pattern-list order then per-pattern match order (patterns that throw
contribute nothing). -/
def allGlobbedDetails (env : BuildEnv) (patterns : List String) :
    List (Option FileDetails) :=
  (patterns.map fun p =>
    match env.getFileDetails p with
    | .ok r => r.globbedFileDetails
    | .error _ => []).flatten

/-- Membership in the association map is the same as a successful lookup. -/
theorem mapHas_eq_isSome (m : List (String × FileDetails)) (k : String) :
    mapHas m k = (mapLookup m k).isSome := by
  induction m with
  | nil => rfl
  | cons p rest ih =>
    by_cases h : p.1 == k
    · simp [mapHas, mapLookup, h]
    · simp [mapHas, mapLookup, h, ih, mapHas] at *
      exact ih

/-- Lookup distributes over append of association lists. -/
theorem mapLookup_append (m1 m2 : List (String × FileDetails)) (k : String) :
    mapLookup (m1 ++ m2) k = optOr (mapLookup m1 k) (mapLookup m2 k) := by
  induction m1 with
  | nil => simp [mapLookup, optOr]
  | cons p rest ih =>
    by_cases h : p.1 == k
    · simp [mapLookup, h, optOr]
    · simp [mapLookup, h, ih]

/-- A defined lookup absorbs the right argument of `optOr`. -/
theorem optOr_of_isSome (a : Option FileDetails) (b : Option FileDetails)
    (h : a.isSome = true) : optOr a b = a := by
  cases a with
  | some v => rfl
  | none => simp at h

/-- Associativity of `optOr`. -/
theorem optOr_assoc (a b c : Option FileDetails) :
    optOr (optOr a b) c = optOr a (optOr b c) := by
  cases a <;> rfl

/-- `lookupFirstDetail` distributes over append of streams. -/
theorem lookupFirstDetail_append (k : String) (l1 l2 : List (Option FileDetails)) :
    lookupFirstDetail k (l1 ++ l2) =
      optOr (lookupFirstDetail k l1) (lookupFirstDetail k l2) := by
  induction l1 with
  | nil => simp [lookupFirstDetail, optOr]
  | cons od rest ih =>
    cases od with
    | none => simpa [lookupFirstDetail] using ih
    | some d =>
      by_cases h : d.file == k
      · simp [lookupFirstDetail, h, optOr]
      · simpa [lookupFirstDetail, h] using ih

/-- Setting an absent key appends it. -/
theorem mapSet_of_not_has (m : List (String × FileDetails)) (k : String) (v : FileDetails)
    (h : mapHas m k = false) : mapSet m k v = m ++ [(k, v)] := by
  simp [mapSet, h]

/-- Registration of one pattern's detail stream: lookups in the resulting
map are first-write-wins — an existing registration is kept and otherwise
the first matching non-null detail of the stream is taken. -/
theorem registerDetails_lookup (k : String) (ds : List (Option FileDetails)) :
    ∀ m, mapLookup (registerDetails m ds) k =
      optOr (mapLookup m k) (lookupFirstDetail k ds) := by
  induction ds with
  | nil =>
    intro m
    cases h : mapLookup m k <;> simp [registerDetails, lookupFirstDetail, optOr, h]
  | cons od rest ih =>
    intro m
    cases od with
    | none =>
      have : registerDetails m (none :: rest) = registerDetails m rest := rfl
      rw [this, ih]
      simp [lookupFirstDetail]
    | some d =>
      by_cases hhas : mapHas m d.file
      · have hstep : registerDetails m (some d :: rest) = registerDetails m rest := by
          simp [registerDetails, hhas]
        rw [hstep, ih]
        by_cases hk : d.file == k
        · have hk' : d.file = k := by simpa using hk
          subst hk'
          have hsome : (mapLookup m d.file).isSome = true := by
            rw [← mapHas_eq_isSome]; exact hhas
          rw [lookupFirstDetail, if_pos (by simp)]
          rw [optOr_of_isSome _ _ hsome, optOr_of_isSome _ _ hsome]
        · rw [lookupFirstDetail, if_neg (by simpa using hk)]
      · have hstep : registerDetails m (some d :: rest) =
            registerDetails (m ++ [(d.file, d)]) rest := by
          simp [registerDetails, hhas, mapSet_of_not_has m d.file d (by simpa using hhas)]
        rw [hstep, ih, mapLookup_append, optOr_assoc]
        congr 1
        by_cases hk : d.file == k
        · simp [mapLookup, lookupFirstDetail, hk, optOr]
        · simp [mapLookup, lookupFirstDetail, hk, optOr]

/-- The generalized first-write-wins invariant of the direct-glob loop:
for every key, the lookup in the final map is the existing registration if
any, and otherwise the first matching detail of the whole resolved stream
in pattern-list order then per-pattern match order. -/
theorem globLoop_lookup (env : BuildEnv) (k : String) (patterns : List String)
    (hOk : ∀ p ∈ patterns, (env.getFileDetails p).isOk = true) :
    ∀ m w, mapLookup (globLoop env patterns m w).1 k =
      optOr (mapLookup m k) (lookupFirstDetail k (allGlobbedDetails env patterns)) := by
  induction patterns with
  | nil =>
    intro m w
    cases h : mapLookup m k <;>
      simp [globLoop, allGlobbedDetails, lookupFirstDetail, optOr, h]
  | cons p rest ih =>
    intro m w
    have hp : (env.getFileDetails p).isOk = true := hOk p (by simp)
    cases hfd : env.getFileDetails p with
    | error e => rw [hfd] at hp; simp [Except.isOk, Except.toBool] at hp
    | ok r =>
      have hall : allGlobbedDetails env (p :: rest) =
          r.globbedFileDetails ++ allGlobbedDetails env rest := by
        simp [allGlobbedDetails, hfd]
      simp only [globLoop, hfd]
      rw [ih (fun q hq => hOk q (by simp [hq])), registerDetails_lookup, hall,
        lookupFirstDetail_append, optOr_assoc]

/-- C6: the unified entry set built by the direct-glob phase of
`getFileManifestEntries` is a first-write-wins map keyed by URL: for every
key, the entry found in the final map is the first detail with that
`file` key in the resolved stream (pattern-list order, then per-pattern
match order); later details with the same key are ignored, never merged. -/
theorem C6_first_write_wins (env : BuildEnv) (patterns : List String) (k : String)
    (hOk : ∀ p ∈ patterns, (env.getFileDetails p).isOk = true) :
    mapLookup (globLoop env patterns [] []).1 k =
      lookupFirstDetail k (allGlobbedDetails env patterns) := by
  rw [globLoop_lookup env k patterns hOk [] []]
  rfl

/-- Witness for C6 at a concrete input: patterns `p1` and `p2` both resolve
a detail with the key `u` (hashes `A` and `B`); the map keeps the first
(`A`) and drops the later one. -/
theorem C6_first_write_wins_witness :
    (∀ p ∈ ["p1", "p2"], (sampleEnv.getFileDetails p).isOk = true) ∧
    mapLookup (globLoop sampleEnv ["p1", "p2"] [] []).1 "u" =
      lookupFirstDetail "u" (allGlobbedDetails sampleEnv ["p1", "p2"]) ∧
    lookupFirstDetail "u" (allGlobbedDetails sampleEnv ["p1", "p2"]) =
      some sampleDetails1 := by
  refine ⟨by decide, ?_, by decide⟩
  exact C6_first_write_wins sampleEnv ["p1", "p2"] "u" (by decide)

/-- When every pattern of a templated URL's dependency list expands to an
empty match list, the reduce succeeds with the accumulator unchanged. -/
theorem depsReduce_all_empty (env : BuildEnv) (url : String) (patterns : List String)
    (hEmpty : ∀ p ∈ patterns, ∃ r, env.getFileDetails p = .ok r ∧
      r.globbedFileDetails = []) :
    ∀ acc w, ∃ w', depsReduce env url patterns acc w = .ok (acc, w') := by
  induction patterns with
  | nil => intro acc w; exact ⟨w, rfl⟩
  | cons p rest ih =>
    intro acc w
    obtain ⟨r, hr, hnil⟩ := hEmpty p (by simp)
    have ih' := ih (fun q hq => hEmpty q (by simp [hq]))
    obtain ⟨w', hw'⟩ := ih' acc (match r.warning with | some s => w ++ [s] | none => w)
    refine ⟨w', ?_⟩
    simp only [depsReduce, hr, hnil, List.append_nil]
    exact hw'

/-- Inner induction for C4: as soon as the templated-URL list contains a
URL whose dependency pattern list resolves to nothing in total, the loop
ends in a fatal error (a collision error, a fatal expansion error of an
earlier entry, or the zero-dependency error itself). -/
theorem templatedLoop_zero_deps_error (env : BuildEnv) (url : String)
    (patterns : List String)
    (hEmpty : ∀ p ∈ patterns, ∃ r, env.getFileDetails p = .ok r ∧
      r.globbedFileDetails = []) :
    ∀ (l : List (String × TemplatedValue)), (url, TemplatedValue.deps patterns) ∈ l →
      ∀ m w, ∃ e, templatedLoop env l m w = .error e := by
  intro l
  induction l with
  | nil => intro hMem; simp at hMem
  | cons hd rest ih =>
    intro hMem m w
    obtain ⟨u, v⟩ := hd
    by_cases hhas : mapHas m u
    · exact ⟨.templatedURLCollision u, by simp [templatedLoop, hhas]⟩
    · rcases List.mem_cons.mp hMem with hEq | hTail
      · have hu : u = url := congrArg Prod.fst hEq.symm
        have hv : v = TemplatedValue.deps patterns := congrArg Prod.snd hEq.symm
        subst hu
        subst hv
        obtain ⟨w', hw'⟩ := depsReduce_all_empty env u patterns hEmpty [] w
        exact ⟨.noDependenciesResolved u, by simp [templatedLoop, hhas, hw']⟩
      · cases v with
        | revString s =>
          obtain ⟨e, he⟩ := ih hTail (mapSet m u (env.getStringDetails u s)) w
          exact ⟨e, by simp [templatedLoop, hhas, he]⟩
        | deps ps =>
          cases hdr : depsReduce env u ps [] w with
          | error e => exact ⟨e, by simp [templatedLoop, hhas, hdr]⟩
          | ok dw =>
            by_cases hlen : dw.1.length = 0
            · exact ⟨.noDependenciesResolved u, by simp [templatedLoop, hhas, hdr, hlen]⟩
            · obtain ⟨e, he⟩ :=
                ih hTail (mapSet m u (env.getCompositeDetails u dw.1)) dw.2
              exact ⟨e, by simp [templatedLoop, hhas, hdr, hlen, he]⟩

/-- C4: whenever the templated-URL map contains a URL whose dependency
list is a list of glob patterns that resolve to zero file details in
total, `getFileManifestEntries` aborts with a fatal error and returns no
manifest. -/
theorem C4_zero_deps_fatal (env : BuildEnv) (opts : ManifestOptions)
    (turls : List (String × TemplatedValue)) (url : String) (patterns : List String)
    (hT : opts.templatedURLs = some turls)
    (hMem : (url, TemplatedValue.deps patterns) ∈ turls)
    (hEmpty : ∀ p ∈ patterns, ∃ r, env.getFileDetails p = .ok r ∧
      r.globbedFileDetails = []) :
    ∃ e, getFileManifestEntries env opts = .error e := by
  obtain ⟨e, he⟩ := templatedLoop_zero_deps_error env url patterns hEmpty turls hMem
    (globLoop env opts.globPatterns [] []).1 (globLoop env opts.globPatterns [] []).2
  exact ⟨e, by simp [getFileManifestEntries, resolvePhases, hT, he]⟩

/-- Witness for C4 at a concrete input: the templated URL `a` depends on
the single pattern `nope`, which matches nothing; the build fails. -/
theorem C4_zero_deps_fatal_witness :
    (("a", TemplatedValue.deps ["nope"]) ∈ [("a", TemplatedValue.deps ["nope"])]) ∧
    ∃ e, getFileManifestEntries sampleEnv
      { globPatterns := [], templatedURLs := some [("a", TemplatedValue.deps ["nope"])],
        disablePrecacheManifest := false } = .error e := by
  refine ⟨by simp, ?_⟩
  refine C4_zero_deps_fatal sampleEnv _ _ "a" ["nope"] rfl (by simp) ?_
  intro p hp
  rw [List.mem_singleton] at hp
  subst hp
  exact ⟨⟨[], none⟩, rfl, rfl⟩

/-- `mapSet` preserves existing key membership. -/
theorem mapHas_mapSet (m : List (String × FileDetails)) (k0 k : String)
    (v : FileDetails) (h : mapHas m k = true) : mapHas (mapSet m k0 v) k = true := by
  by_cases h0 : mapHas m k0
  · simp only [mapSet, h0, if_pos]
    simp only [mapHas, List.any_map, List.any_eq_true] at h ⊢
    obtain ⟨p, hp, hpk⟩ := h
    refine ⟨p, hp, ?_⟩
    have e2 : p.1 = k := by simpa using hpk
    by_cases hpk0 : (p.1 == k0) = true
    · have e1 : p.1 = k0 := by simpa using hpk0
      simp [Function.comp, hpk0, ← e1, e2]
    · have ne : k ≠ k0 := fun hkk => hpk0 (by simp [e2, hkk])
      simp [Function.comp, e2, ne]
  · have h0' : mapHas m k0 = false := by simpa using h0
    simp only [mapSet, h0', Bool.false_eq_true, if_neg, not_false_iff]
    simp only [mapHas] at h ⊢
    simp only [List.any_append, Bool.or_eq_true]
    exact Or.inl h

/-- The templated-URL loop over a concatenation runs the first block and,
when that block succeeds, continues with the second from its state. -/
theorem templatedLoop_append (env : BuildEnv) (l1 l2 : List (String × TemplatedValue)) :
    ∀ m w, templatedLoop env (l1 ++ l2) m w =
      match templatedLoop env l1 m w with
      | .error e => .error e
      | .ok mw => templatedLoop env l2 mw.1 mw.2 := by
  induction l1 with
  | nil => intro m w; simp [templatedLoop]
  | cons hd rest ih =>
    intro m w
    obtain ⟨u, v⟩ := hd
    by_cases hhas : mapHas m u
    · simp [templatedLoop, hhas]
    · cases v with
      | revString s =>
        simp only [List.cons_append, templatedLoop, hhas, Bool.false_eq_true, if_neg,
          not_false_iff]
        exact ih _ _
      | deps ps =>
        simp only [List.cons_append, templatedLoop, hhas, Bool.false_eq_true, if_neg,
          not_false_iff]
        cases hdr : depsReduce env u ps [] w with
        | error e => rfl
        | ok dw =>
          by_cases hlen : dw.1.length = 0
          · simp [hlen]
          · simp only [hlen, if_neg]
            exact ih _ _

/-- A key present in the map stays present through a successful
templated-URL loop (the loop only adds or overwrites entries). -/
theorem templatedLoop_preserves_has (env : BuildEnv)
    (l : List (String × TemplatedValue)) (k : String) :
    ∀ m w m' w', templatedLoop env l m w = .ok (m', w') →
      mapHas m k = true → mapHas m' k = true := by
  induction l with
  | nil =>
    intro m w m' w' hok hk
    simp only [templatedLoop, Except.ok.injEq] at hok
    obtain ⟨h1, _⟩ := Prod.mk.injEq m w m' w' ▸ hok
    exact h1 ▸ hk
  | cons hd rest ih =>
    intro m w m' w' hok hk
    obtain ⟨u, v⟩ := hd
    by_cases hhas : mapHas m u
    · simp [templatedLoop, hhas] at hok
    · cases v with
      | revString s =>
        simp only [templatedLoop, hhas, Bool.false_eq_true, if_neg, not_false_iff] at hok
        exact ih _ _ _ _ hok (mapHas_mapSet m u k (env.getStringDetails u s) hk)
      | deps ps =>
        simp only [templatedLoop, hhas, Bool.false_eq_true, if_neg, not_false_iff] at hok
        cases hdr : depsReduce env u ps [] w with
        | error e => rw [hdr] at hok; simp at hok
        | ok dw =>
          rw [hdr] at hok
          by_cases hlen : dw.1.length = 0
          · simp [hlen] at hok
          · simp only [hlen, if_neg] at hok
            exact ih _ _ _ _ hok (mapHas_mapSet m u k (env.getCompositeDetails u dw.1) hk)

/-- C3 (counterexample): the claim requires a `TemplatedURLCollision` error
for every configuration in which a templated URL equals a glob-produced
URL. In this configuration `u` is produced by the glob pattern `p1` and is
also a templated URL, yet the build aborts with the zero-dependency error
of the earlier templated entry `a`, which the loop reaches first — so the
fatal error is not the collision error. -/
theorem C3_counterexample :
    mapHas (globLoop sampleEnv ["p1"] [] []).1 "u" = true ∧
    getFileManifestEntries sampleEnv
        { globPatterns := ["p1"],
          templatedURLs := some [("a", .deps ["nope"]), ("u", .revString "r")],
          disablePrecacheManifest := false } =
      .error (.noDependenciesResolved "a") := by
  exact ⟨by decide, by rfl⟩

/-- C3 (amended): whenever a templated URL equals a URL already produced by
direct glob expansion, `getFileManifestEntries` aborts with a fatal error
before the transform stage runs (the result is an error, so
`transformManifest` is never reached); and when the templated-URL loop
reaches that entry (every earlier templated entry having succeeded), the
error is precisely `TemplatedURLCollision` for that URL. -/
theorem C3_amended_collision (env : BuildEnv) (opts : ManifestOptions)
    (pre post : List (String × TemplatedValue)) (url : String) (v : TemplatedValue)
    (hT : opts.templatedURLs = some (pre ++ (url, v) :: post))
    (hCollide : mapHas (globLoop env opts.globPatterns [] []).1 url = true) :
    (∃ e, getFileManifestEntries env opts = .error e) ∧
    (∀ m' w', templatedLoop env pre (globLoop env opts.globPatterns [] []).1
        (globLoop env opts.globPatterns [] []).2 = .ok (m', w') →
      getFileManifestEntries env opts = .error (.templatedURLCollision url)) := by
  have happ := templatedLoop_append env pre ((url, v) :: post)
    (globLoop env opts.globPatterns [] []).1 (globLoop env opts.globPatterns [] []).2
  cases hpre : templatedLoop env pre (globLoop env opts.globPatterns [] []).1
      (globLoop env opts.globPatterns [] []).2 with
  | error e =>
    rw [hpre] at happ
    refine ⟨⟨e, by simp [getFileManifestEntries, resolvePhases, hT, happ]⟩, ?_⟩
    intro m' w' hok
    simp at hok
  | ok mw =>
    rw [hpre] at happ
    have hhas : mapHas mw.1 url = true :=
      templatedLoop_preserves_has env pre url _ _ mw.1 mw.2
        (by rw [hpre]) hCollide
    have hcoll : templatedLoop env ((url, v) :: post) mw.1 mw.2 =
        .error (.templatedURLCollision url) := by
      simp [templatedLoop, hhas]
    refine ⟨⟨.templatedURLCollision url, ?_⟩, ?_⟩
    · simp [getFileManifestEntries, resolvePhases, hT, happ, hcoll]
    · intro m' w' hok
      simp [getFileManifestEntries, resolvePhases, hT, happ, hcoll]

/-- Witness for C3 (amended) at a concrete input: the glob pattern `p1`
produces the URL `u`, which is also a templated URL (with no earlier
templated entry); the build aborts with `TemplatedURLCollision u`. -/
theorem C3_amended_collision_witness :
    mapHas (globLoop sampleEnv ["p1"] [] []).1 "u" = true ∧
    getFileManifestEntries sampleEnv
        { globPatterns := ["p1"], templatedURLs := some [("u", .revString "r")],
          disablePrecacheManifest := false } =
      .error (.templatedURLCollision "u") := by
  refine ⟨by decide, ?_⟩
  exact (C3_amended_collision sampleEnv
      { globPatterns := ["p1"], templatedURLs := some [("u", .revString "r")],
        disablePrecacheManifest := false }
      [] [] "u" (.revString "r") rfl (by decide)).2 _ _ rfl

/-- C8: with `disablePrecacheManifest` set, whenever the build returns a
result, the transform pipeline has short-circuited: the result carries no
manifest entries, size 0 and count 0, while its warnings are exactly the
warnings accumulated by the resolution phases (the short-circuit
contributes none of its own); and the plugin's `getManifestEntries`
likewise returns immediately with size 0, no sorted entries and the
manifest string `undefined`, leaving the instance flag and the
compilation warnings untouched. -/
theorem C8_disable_short_circuit (env : BuildEnv) (opts : ManifestOptions)
    (r : GetManifestResult) (cfg : QuoteConfig)
    (pipeline : Nat × List (List (String × Option String)))
    (ac : Bool) (w : List String)
    (hD : opts.disablePrecacheManifest = true)
    (hOk : getFileManifestEntries env opts = .ok r) :
    r.manifestEntries = none ∧ r.size = 0 ∧ r.count = 0 ∧
    (∃ mw, resolvePhases env opts = .ok mw ∧ r.warnings = mw.2) ∧
    getManifestEntriesStep cfg true pipeline ac w =
      (ac, w, { size := 0, sortedEntries := none, manifestString := "undefined" }) := by
  cases hres : resolvePhases env opts with
  | error e =>
    rw [getFileManifestEntries, hres] at hOk
    simp at hOk
  | ok mw =>
    rw [getFileManifestEntries, hres] at hOk
    simp only [transformManifest, hD, if_pos, Except.ok.injEq] at hOk
    refine ⟨?_, ?_, ?_, ⟨mw, rfl, ?_⟩, rfl⟩ <;> rw [← hOk] <;> simp

/-- Witness for C8 at a concrete input: a run with one matching pattern and
the manifest disabled returns the empty result with no warnings. -/
theorem C8_disable_short_circuit_witness :
    getFileManifestEntries sampleEnv
        { globPatterns := ["p1"], templatedURLs := none,
          disablePrecacheManifest := true } =
      .ok { count := 0, size := 0, manifestEntries := none, warnings := [] } ∧
    ({ count := 0, size := 0, manifestEntries := none,
        warnings := [] } : GetManifestResult).manifestEntries = none ∧
    getManifestEntriesStep ⟨false, false, false⟩ true (0, []) false [] =
      (false, [], { size := 0, sortedEntries := none, manifestString := "undefined" }) := by
  refine ⟨by rfl, ?_, ?_⟩
  · exact (C8_disable_short_circuit sampleEnv
      { globPatterns := ["p1"], templatedURLs := none, disablePrecacheManifest := true }
      { count := 0, size := 0, manifestEntries := none, warnings := [] }
      ⟨false, false, false⟩ (0, []) false [] rfl (by rfl)).1
  · exact (C8_disable_short_circuit sampleEnv
      { globPatterns := ["p1"], templatedURLs := none, disablePrecacheManifest := true }
      { count := 0, size := 0, manifestEntries := none, warnings := [] }
      ⟨false, false, false⟩ (0, []) false [] rfl (by rfl)).2.2.2.2

/-- The key order used by the serializer is total. -/
instance : IsTotal (String × Option String) (fun p q => p.1 ≤ q.1) :=
  ⟨fun a b => le_total a.1 b.1⟩

/-- The key order used by the serializer is transitive. -/
instance : IsTrans (String × Option String) (fun p q => p.1 ≤ q.1) :=
  ⟨fun _ _ _ h1 h2 => le_trans h1 h2⟩

/-- The strict key order is antisymmetric (vacuously, by asymmetry). -/
instance : IsAntisymm (String × Option String) (fun p q => p.1 < q.1) :=
  ⟨fun _ _ h1 h2 => absurd h1 (lt_asymm h2)⟩

/-- Two field lists that are permutations of one another with pairwise
distinct keys canonicalize to the same sorted field list. -/
theorem sortFields_eq_of_perm (o1 o2 : List (String × Option String))
    (hperm : o1.Perm o2) (hnd : (o1.map Prod.fst).Nodup) :
    sortFields o1 = sortFields o2 := by
  have hp1 : (sortFields o1).Perm o1 := List.perm_insertionSort _ o1
  have hp2 : (sortFields o2).Perm o2 := List.perm_insertionSort _ o2
  have hp : (sortFields o1).Perm (sortFields o2) :=
    (hp1.trans hperm).trans hp2.symm
  have hs1 : List.Sorted (fun p q : String × Option String => p.1 ≤ q.1)
      (sortFields o1) := List.sorted_insertionSort _ o1
  have hs2 : List.Sorted (fun p q : String × Option String => p.1 ≤ q.1)
      (sortFields o2) := List.sorted_insertionSort _ o2
  have hnd1 : ((sortFields o1).map Prod.fst).Nodup :=
    (hp1.map Prod.fst).nodup_iff.mpr hnd
  have hnd2 : ((sortFields o2).map Prod.fst).Nodup :=
    ((hp2.map Prod.fst).nodup_iff).mpr ((hperm.map Prod.fst).nodup_iff.mp hnd)
  have hlt : ∀ (l : List (String × Option String)),
      List.Sorted (fun p q : String × Option String => p.1 ≤ q.1) l →
      (l.map Prod.fst).Nodup →
      List.Sorted (fun p q : String × Option String => p.1 < q.1) l := by
    intro l hle hnod
    have hne : List.Pairwise (fun p q : String × Option String => p.1 ≠ q.1) l :=
      List.pairwise_map.mp hnod
    exact (hle.and hne).imp fun h => lt_of_le_of_ne h.1 h.2
  exact List.eq_of_perm_of_sorted hp (hlt _ hs1 hnd1) (hlt _ hs2 hnd2)

/-- Serializing one in-memory object is independent of its field insertion
order, provided its keys are distinct. -/
theorem stringifyObj_eq_of_perm (o1 o2 : List (String × Option String))
    (hperm : o1.Perm o2) (hnd : (o1.map Prod.fst).Nodup) :
    stringifyObj o1 = stringifyObj o2 := by
  rw [stringifyObj, stringifyObj, sortFields_eq_of_perm o1 o2 hperm hnd]

/-- C9: the serialization step of `getManifestEntries` is a deterministic
function of the logical entry list: two runs over entry lists that agree
entry by entry up to object-key insertion order (each entry's keys being
distinct), under the same configuration, produce byte-identical
`manifestString` values. -/
theorem C9_serializer_deterministic (cfg : QuoteConfig)
    (es1 es2 : List (List (String × Option String)))
    (h : List.Forall₂
      (fun o1 o2 => o1.Perm o2 ∧ (o1.map Prod.fst).Nodup) es1 es2) :
    makeManifestString cfg es1 = makeManifestString cfg es2 := by
  have hmap : es1.map stringifyObj = es2.map stringifyObj := by
    induction h with
    | nil => rfl
    | cons hd tl ih =>
      simp only [List.map_cons, ih]
      rw [stringifyObj_eq_of_perm _ _ hd.1 hd.2]
  rw [makeManifestString, makeManifestString, stringifyEntries, stringifyEntries, hmap]

/-- Witness for C9 at a concrete input: one entry written with its two
fields in the two possible orders serializes to the same manifest string
under the `compileSrc` quote configuration. -/
theorem C9_serializer_deterministic_witness :
    List.Forall₂ (fun o1 o2 => o1.Perm o2 ∧ (o1.map Prod.fst).Nodup)
      [[("url", some "a.js"), ("revision", some "h1")]]
      [[("revision", some "h1"), ("url", some "a.js")]] ∧
    makeManifestString ⟨true, false, false⟩
        [[("url", some "a.js"), ("revision", some "h1")]] =
      makeManifestString ⟨true, false, false⟩
        [[("revision", some "h1"), ("url", some "a.js")]] := by
  have hp : List.Perm [("url", some "a.js"), ("revision", some "h1")]
      [("revision", some "h1"), ("url", some "a.js")] :=
    List.Perm.swap ("revision", some "h1") ("url", some "a.js") []
  have hf : List.Forall₂ (fun o1 o2 => o1.Perm o2 ∧ (o1.map Prod.fst).Nodup)
      [[("url", some "a.js"), ("revision", some "h1")]]
      [[("revision", some "h1"), ("url", some "a.js")]] :=
    List.Forall₂.cons ⟨hp, by decide⟩ List.Forall₂.nil
  exact ⟨hf, C9_serializer_deterministic ⟨true, false, false⟩ _ _ hf⟩
